import Mathlib

/-!
# AloranCredits treasury core: verification of the key-custody vault and
# endpoint-resilience layer

Shallow embedding of `src/aloran_treasury/lock_manager.py`,
`src/aloran_treasury/wallet.py` and `src/aloran_treasury/network_monitor.py`.
Python byte strings are `List Nat` (each entry a byte value), Python `dict`
metadata loaded from JSON is a `PyJson` value, and methods that mutate
`self` are state-passing functions returning the updated state.  External
library functions (PBKDF2 key derivation, base64, the ed25519 keypair codec
of `solders`, the RPC client) are parameters gathered in the `Crypto`
structure or passed as function arguments, so every theorem is explicit
about which library facts it uses.
-/

namespace Aloran

/-- Python `_xor_bytes(left, right)`: XOR two byte strings, truncating to
the shorter length (`zip` semantics). -/
def xorBytes (left right : List Nat) : List Nat :=
  List.zipWith (fun a b => a ^^^ b) left right

/-- A parsed JSON value as produced by Python's `json.loads`. -/
inductive PyJson where
  | null : PyJson
  | bool : Bool → PyJson
  | num : Int → PyJson
  | str : String → PyJson
  | arr : List PyJson → PyJson
  | obj : List (String × PyJson) → PyJson

/-- Field lookup in a JSON object, Python `dict.get(key)` (first binding
wins; `none` models Python `None` for a missing key). -/
def pyLookup (fields : List (String × PyJson)) (key : String) : Option PyJson :=
  match fields with
  | [] => none
  | (k, v) :: rest => if k = key then some v else pyLookup rest key

/-- Python truthiness of an optional JSON value (`not x` in the source);
`none` is Python `None`. -/
def truthy : Option PyJson → Bool
  | none => false
  | some .null => false
  | some (.bool b) => b
  | some (.num n) => n ≠ 0
  | some (.str s) => s ≠ ""
  | some (.arr xs) => !xs.isEmpty
  | some (.obj fs) => !fs.isEmpty

/-- Extract the underlying object fields when the value is a `dict`;
`none` models the `AttributeError` raised by `.get` on a non-dict. -/
def pyAsObj : PyJson → Option (List (String × PyJson))
  | .obj fs => some fs
  | _ => none

/-- Extract a Python `str`; `none` models the `TypeError` raised when a
non-string reaches `base64.b64decode`. -/
def pyAsStr : Option PyJson → Option String
  | some (.str s) => some s
  | _ => none

/-- External library operations used by `lock_manager.py`:
`hashlib.pbkdf2_hmac` (via `_derive_key`), `base64` and the `solders`
keypair codec.  `valid bs` holds when `Keypair.from_bytes(bs)` succeeds,
and `pubStr` renders the public-key half of a keypair's bytes the way
`str(keypair.pubkey())` does. -/
structure Crypto where
  deriveKey : String → List Nat → Nat → List Nat
  b64encode : List Nat → String
  b64decode : String → Option (List Nat)
  valid : List Nat → Bool
  pubStr : List Nat → String

/-- A `solders` keypair, represented by its 64-byte serialization
(`to_bytes`): the 32 secret bytes followed by the 32 public-key bytes. -/
structure Keypair where
  bytes : List Nat
deriving DecidableEq

/-- `str(keypair.pubkey())`: the public identity string of a keypair. -/
def Crypto.pubkeyStr (C : Crypto) (kp : Keypair) : String :=
  C.pubStr (kp.bytes.drop 32)

/-- The in-memory state of `LockManager`.  Listener callbacks are modelled
by their count together with an event log recording each notification
payload: `unlockEvents` records the `Keypair` handed to every unlock
listener, `lockEvents` counts lock-listener invocations. -/
structure LockManager where
  inactivity_seconds : Int
  state_locked : Bool
  timer : Option Int
  keypair : Option Keypair
  keystore_metadata : Option PyJson
  nLockListeners : Nat
  nUnlockListeners : Nat
  lockEvents : Nat
  unlockEvents : List Keypair

/-- The observable content of the keystore file at startup: absent, present
but rejected by `json.loads` (`JSONDecodeError`), or present with a parsed
JSON value. -/
inductive FileState where
  | absent : FileState
  | invalidJson : String → FileState
  | validJson : PyJson → FileState

/-- `LockManager._load_keystore`: an absent file leaves the metadata
`None`; a `JSONDecodeError` is caught and also leaves it `None`; a
successfully parsed JSON value is stored as the metadata — except that
`json.loads("null")` returns Python `None`, so the JSON literal `null`
also leaves the stored metadata `None`. -/
def loadKeystore : FileState → Option PyJson
  | .absent => none
  | .invalidJson _ => none
  | .validJson .null => none
  | .validJson v => some v

/-- `LockManager.__init__`: locked, no keypair, no timer, metadata from
`_load_keystore`; listener lists start empty (their eventual sizes are the
model parameters `nLock`, `nUnlock`). -/
def initLockManager (inactivity : Int) (file : FileState)
    (nLock nUnlock : Nat) : LockManager :=
  { inactivity_seconds := inactivity
    state_locked := true
    timer := none
    keypair := none
    keystore_metadata := loadKeystore file
    nLockListeners := nLock
    nUnlockListeners := nUnlock
    lockEvents := 0
    unlockEvents := [] }

/-- `LockManager.has_keystore`. -/
def hasKeystore (m : LockManager) : Bool :=
  m.keystore_metadata.isSome

/-- `LockManager._start_timer`: disabled when `inactivity_seconds <= 0`;
otherwise cancels any pending timer and schedules a fresh single-shot
timer for `inactivity_seconds`. -/
def startTimer (m : LockManager) : LockManager :=
  if m.inactivity_seconds ≤ 0 then m
  else { m with timer := some m.inactivity_seconds }

/-- `LockManager._set_unlocked`: store the keypair, clear the locked flag,
start the inactivity timer, then synchronously call every unlock listener
with the keypair itself. -/
def setUnlocked (kp : Keypair) (m : LockManager) : LockManager :=
  let m1 := startTimer { m with keypair := some kp, state_locked := false }
  { m1 with unlockEvents := m1.unlockEvents ++ List.replicate m1.nUnlockListeners kp }

/-- `LockManager.lock`: cancel any pending timer, drop the in-memory
keypair, set the locked flag, notify every lock listener. -/
def lockSession (m : LockManager) : LockManager :=
  { m with timer := none
           keypair := none
           state_locked := true
           lockEvents := m.lockEvents + m.nLockListeners }

/-- `LockManager.register_activity`: a no-op while locked, otherwise
restarts the inactivity timer. -/
def registerActivity (m : LockManager) : LockManager :=
  if m.state_locked then m else startTimer m

/-- `LockManager.unlock_with_keypair`. -/
def unlockWithKeypair (kp : Keypair) (m : LockManager) : LockManager :=
  setUnlocked kp m

/-- `LockManager._expire_session`, as invoked by a still-scheduled timer:
a timer that was never started (or was cancelled) cannot fire. -/
def timerFire (m : LockManager) : LockManager :=
  match m.timer with
  | none => m
  | some _ => lockSession m

/-- The exceptions `LockManager.unlock` can raise. -/
inductive UnlockError where
  | noKeystore        -- RuntimeError("No keystore metadata available")
  | attributeError    -- `.get` on metadata that is not a dict
  | incompleteMetadata -- ValueError("Incomplete keystore metadata")
  | typeError         -- base64.b64decode applied to a non-string field
  | b64Error          -- base64.b64decode rejecting the stored text
  | wrongPassphrase   -- ValueError("Failed to decrypt keystore with provided passphrase")
deriving DecidableEq

/-- `LockManager.persist_keystore`: `entropy` is the byte serialization of
the fresh `Keypair()` whose first 16 bytes become the salt, `now` is
`time.time()`.  Derives a 64-byte key, XORs it with the keypair bytes and
records the base64-encoded metadata. -/
def persistKeystore (C : Crypto) (entropy : List Nat) (now : Nat)
    (passphrase : String) (kp : Keypair) (m : LockManager) : LockManager :=
  let salt := entropy.take 16
  let derived_key := C.deriveKey passphrase salt 64
  let ciphertext := xorBytes kp.bytes derived_key
  let metadata : PyJson := .obj
    [ ("salt", .str (C.b64encode salt))
    , ("ciphertext", .str (C.b64encode ciphertext))
    , ("public_key", .str (C.pubkeyStr kp))
    , ("created", .num (Int.ofNat now)) ]
  { m with keystore_metadata := some metadata }

/-- The `public_key` string recorded in the keystore metadata, if any. -/
def recordedPublicKey (m : LockManager) : Option PyJson :=
  match m.keystore_metadata with
  | some (.obj fs) => pyLookup fs "public_key"
  | _ => none

/-- `LockManager.unlock`: decode the stored salt and ciphertext, re-derive
the key with `dklen = len(ciphertext)`, XOR to recover the candidate
plaintext, and accept it only if `Keypair.from_bytes` succeeds; on any
failure the state is returned unchanged. -/
def unlock (C : Crypto) (passphrase : String) (m : LockManager) :
    Except UnlockError Keypair × LockManager :=
  match m.keystore_metadata with
  | none => (.error .noKeystore, m)
  | some meta =>
    match pyAsObj meta with
    | none => (.error .attributeError, m)
    | some fields =>
      let salt_b64 := pyLookup fields "salt"
      let ciphertext_b64 := pyLookup fields "ciphertext"
      if ¬ truthy salt_b64 ∨ ¬ truthy ciphertext_b64 then
        (.error .incompleteMetadata, m)
      else
        match pyAsStr salt_b64 with
        | none => (.error .typeError, m)
        | some saltText =>
          match pyAsStr ciphertext_b64 with
          | none => (.error .typeError, m)
          | some ctText =>
            match C.b64decode saltText with
            | none => (.error .b64Error, m)
            | some salt =>
              match C.b64decode ctText with
              | none => (.error .b64Error, m)
              | some ciphertext =>
                let derived_key := C.deriveKey passphrase salt ciphertext.length
                let plaintext := xorBytes ciphertext derived_key
                if C.valid plaintext then
                  let kp : Keypair := ⟨plaintext⟩
                  (.ok kp, setUnlocked kp m)
                else
                  (.error .wrongPassphrase, m)

/-! ## wallet.py: endpoint pools, selection and the RPC wrappers -/

/-- The `Network` literal type of `wallet.py`. -/
inductive Network where
  | mainnet | testnet | devnet
deriving DecidableEq

/-- `EndpointStatus`: metadata for a single RPC endpoint within a cluster.
Latency values are opaque measurements; we model them as integers. -/
structure EndpointStatus where
  url : String
  label : String
  priority : Int
  healthy : Option Bool
  latency_ms : Option Int
  last_checked : Option Nat
deriving DecidableEq

/-- `EndpointStatus.mark_result`: record the outcome of a health probe
(`now` models `time.time()`). -/
def EndpointStatus.markResult (ep : EndpointStatus) (healthy : Bool)
    (latency_ms : Option Int) (now : Nat) : EndpointStatus :=
  { ep with healthy := some healthy, latency_ms := latency_ms, last_checked := some now }

/-- The health rank computed by `select_endpoint`'s `sort_key`:
`0 if ep.healthy else (1 if ep.healthy is None else 2)`, i.e. `True ↦ 0`,
`None ↦ 1`, `False ↦ 2`. -/
def healthRank (ep : EndpointStatus) : Nat :=
  match ep.healthy with
  | some true => 0
  | none => 1
  | some false => 2

/-- Python tuple comparison of `sort_key ep = (health_rank, priority)`:
lexicographic, health rank first. -/
def epLe (a b : EndpointStatus) : Bool :=
  healthRank a < healthRank b ∨
    (healthRank a = healthRank b ∧ a.priority ≤ b.priority)

/-- Python's stable `sorted(pool, key=sort_key)`, realised by the (stable)
insertion sort on the `sort_key` order. -/
def sortedPool (pool : List EndpointStatus) : List EndpointStatus :=
  List.insertionSort (fun a b => epLe a b = true) pool

/-- `sorted(network_endpoints, key=sort_key)[0]`, `none` when the pool is
empty. -/
def selectBest (pool : List EndpointStatus) : Option EndpointStatus :=
  (sortedPool pool).head?

/-- Modelled from the spec's tie-break rule: among the candidates the one
with the best health (`Healthy` before `Unknown` before `Unhealthy`) wins,
lower numeric `priority` breaks health ties, and remaining ties preserve
the original pool order — i.e. the first element of the pool attaining the
minimal `(health rank, priority)` key. -/
def firstMin : List EndpointStatus → Option EndpointStatus
  | [] => none
  | x :: xs =>
    match firstMin xs with
    | none => some x
    | some m => some (if epLe x m then x else m)

/-- Association lookup for the `endpoints` dict. -/
def assocGet (d : List (Network × List EndpointStatus)) (n : Network) :
    Option (List EndpointStatus) :=
  match d with
  | [] => none
  | (k, v) :: rest => if k = n then some v else assocGet rest n

/-- Association update for the `endpoints` dict. -/
def assocSet (d : List (Network × List EndpointStatus)) (n : Network)
    (pool : List EndpointStatus) : List (Network × List EndpointStatus) :=
  match d with
  | [] => []
  | (k, v) :: rest =>
    if k = n then (k, pool) :: rest else (k, v) :: assocSet rest n pool

/-- `_default_endpoint_matrix()`. -/
def defaultEndpointMatrix : List (Network × List EndpointStatus) :=
  [ (.mainnet, [⟨"https://api.mainnet-beta.solana.com", "Solana Foundation", 0, none, none, none⟩])
  , (.testnet, [⟨"https://api.testnet.solana.com", "Solana Foundation", 0, none, none, none⟩])
  , (.devnet, [⟨"https://api.devnet.solana.com", "Solana Foundation", 0, none, none, none⟩]) ]

/-- The state of `WalletController` together with the fields of its
`WalletState` that the RPC wrappers touch. -/
structure WalletController where
  network : Network
  sol_balance : Option Rat
  keypair : Option Keypair
  endpoints : List (Network × List EndpointStatus)
deriving DecidableEq

/-- `WalletController.select_endpoint`: look up the pool for the requested
(or active) network, raise `RuntimeError` when it is empty, otherwise
return `sorted(pool, key=sort_key)[0]`.  The method performs no writes, so
the state component of the result is the input state. -/
def selectEndpointM (w : WalletController) (netOpt : Option Network) :
    Except String EndpointStatus × WalletController :=
  let pool := (assocGet w.endpoints (netOpt.getD w.network)).getD []
  match selectBest pool with
  | none => (.error "No endpoints configured for the requested network", w)
  | some ep => (.ok ep, w)

/-- Mutation of the selected `EndpointStatus` object inside the active
pool (Python mutates the aliased object in place; we update the first
pool entry equal to it). -/
def updateEndpoint (w : WalletController) (net : Network) (ep : EndpointStatus)
    (f : EndpointStatus → EndpointStatus) : WalletController :=
  let pool := (assocGet w.endpoints net).getD []
  match pool.indexOf? ep with
  | none => w
  | some i => { w with endpoints := assocSet w.endpoints net (pool.set i (f ep)) }

/-- `WalletController.mark_endpoint_failed`: `endpoint.mark_result(False, None)`. -/
def markEndpointFailed (w : WalletController) (ep : EndpointStatus) (now : Nat) :
    WalletController :=
  updateEndpoint w w.network ep (fun e => e.markResult false none now)

/-- `WalletController._mark_endpoint_healthy`:
`endpoint.mark_result(True, endpoint.latency_ms)`. -/
def markEndpointHealthy (w : WalletController) (ep : EndpointStatus) (now : Nat) :
    WalletController :=
  updateEndpoint w w.network ep (fun e => e.markResult true e.latency_ms now)

/-- `WalletController.fetch_recent_blockhash`: select an endpoint, issue a
single `get_latest_blockhash` RPC (`rpc url = none` models the call
raising), mark the endpoint healthy and return the hash on success; on
failure mark it failed and return the locally generated placeholder
(`secrets.token_hex(16)`, passed in as `placeholder`).  The middle
component records the URLs actually attempted. -/
def fetchRecentBlockhash (rpc : String → Option String) (placeholder : String)
    (now : Nat) (w : WalletController) :
    Except String String × List String × WalletController :=
  let pool := (assocGet w.endpoints w.network).getD []
  match selectBest pool with
  | none => (.error "No endpoints configured for the requested network", [], w)
  | some ep =>
    match rpc ep.url with
    | some h => (.ok h, [ep.url], markEndpointHealthy w ep now)
    | none => (.ok placeholder, [ep.url], markEndpointFailed w ep now)

/-- `WalletController.refresh_balance`: `None` without an RPC call when no
keypair is loaded; otherwise one `get_balance` RPC against the selected
endpoint (`rpc url = none` models the call raising).  On success the SOL
balance is stored and returned, on failure the endpoint is marked failed
and `None` is returned. -/
def refreshBalance (rpc : String → Option Int) (now : Nat) (w : WalletController) :
    Except String (Option Rat) × List String × WalletController :=
  match w.keypair with
  | none => (.ok none, [], w)
  | some _ =>
    let pool := (assocGet w.endpoints w.network).getD []
    match selectBest pool with
    | none => (.error "No endpoints configured for the requested network", [], w)
    | some ep =>
      match rpc ep.url with
      | some lamports =>
        let bal : Rat := (lamports : Rat) / (1000000000 : Rat)
        (.ok (some bal), [ep.url],
          markEndpointHealthy { w with sol_balance := some bal } ep now)
      | none => (.ok none, [ep.url], markEndpointFailed w ep now)

/-! ## network_monitor.py -/

/-- `NetworkMonitor.__init__`'s poll interval computation:
`interval_ms = max(15, min(interval_seconds, 60)) * 1000`. -/
def intervalMs (interval_seconds : Int) : Int :=
  max 15 (min interval_seconds 60) * 1000

/-! ## Helper lemmas -/

theorem xorBytes_length (a b : List Nat) :
    (xorBytes a b).length = min a.length b.length := by
  simp [xorBytes]

theorem xorBytes_cancel : ∀ (a b : List Nat), a.length ≤ b.length →
    xorBytes (xorBytes a b) b = a
  | [], _, _ => by simp [xorBytes]
  | x :: xs, [], h => by simp at h
  | x :: xs, y :: ys, h => by
    simp only [xorBytes, List.zipWith] at *
    refine congrArg₂ (· :: ·) ?_ ?_
    · rw [Nat.xor_assoc, Nat.xor_self, Nat.xor_zero]
    · exact xorBytes_cancel xs ys (by simpa using h)

theorem epLe_refl (a : EndpointStatus) : epLe a a = true := by
  simp [epLe]

theorem epLe_total (a b : EndpointStatus) : epLe a b = true ∨ epLe b a = true := by
  simp only [epLe, decide_eq_true_eq]
  omega

theorem epLe_trans {a b c : EndpointStatus}
    (h1 : epLe a b = true) (h2 : epLe b c = true) : epLe a c = true := by
  simp only [epLe, decide_eq_true_eq] at *
  omega

theorem firstMin_cons_ne_none (x : EndpointStatus) (xs : List EndpointStatus) :
    firstMin (x :: xs) ≠ none := by
  cases h : firstMin xs <;> simp [firstMin, h]

theorem selectBest_eq_firstMin :
    ∀ pool : List EndpointStatus, selectBest pool = firstMin pool
  | [] => rfl
  | x :: xs => by
    have ih := selectBest_eq_firstMin xs
    unfold selectBest sortedPool at *
    simp only [List.insertionSort]
    cases h : List.insertionSort (fun a b => epLe a b = true) xs with
    | nil =>
      have hlen : xs.length = 0 := by
        have hl := List.length_insertionSort (fun a b => epLe a b = true) xs
        rw [h] at hl
        simpa using hl.symm
      have hx : xs = [] := List.eq_nil_of_length_eq_zero hlen
      subst hx
      rfl
    | cons m rest =>
      rw [h] at ih
      simp only [List.head?] at ih
      simp only [List.orderedInsert, firstMin, ← ih]
      by_cases hc : epLe x m = true
      · simp [hc]
      · simp [hc]

theorem firstMin_mem_min :
    ∀ (pool : List EndpointStatus) (e : EndpointStatus), firstMin pool = some e →
      e ∈ pool ∧ ∀ f ∈ pool, epLe e f = true
  | [], e, h => by simp [firstMin] at h
  | x :: xs, e, h => by
    cases hx : firstMin xs with
    | none =>
      cases xs with
      | nil =>
        simp only [firstMin, Option.some.injEq] at h
        refine ⟨?_, ?_⟩
        · rw [← h]; exact List.mem_singleton_self _
        · intro f hf
          rw [List.mem_singleton] at hf
          rw [← h, hf]
          exact epLe_refl _
      | cons y ys => exact absurd hx (firstMin_cons_ne_none y ys)
    | some m =>
      have ih := firstMin_mem_min xs m hx
      simp only [firstMin, hx, Option.some.injEq] at h
      by_cases hc : epLe x m = true
      · rw [if_pos hc] at h
        refine ⟨?_, ?_⟩
        · rw [← h]; exact List.mem_cons_self _ _
        · intro f hf
          rw [← h]
          rcases List.mem_cons.mp hf with rfl | hf
          · exact epLe_refl _
          · exact epLe_trans hc (ih.2 f hf)
      · rw [if_neg hc] at h
        refine ⟨?_, ?_⟩
        · rw [← h]; exact List.mem_cons_of_mem _ ih.1
        · intro f hf
          rw [← h]
          rcases List.mem_cons.mp hf with rfl | hf
          · rcases epLe_total f m with hfm | hmf
            · exact absurd hfm hc
            · exact hmf
          · exact ih.2 f hf

theorem startTimer_fields (m : LockManager) :
    (startTimer m).state_locked = m.state_locked ∧
    (startTimer m).keypair = m.keypair ∧
    (startTimer m).keystore_metadata = m.keystore_metadata ∧
    (startTimer m).unlockEvents = m.unlockEvents ∧
    (startTimer m).nUnlockListeners = m.nUnlockListeners ∧
    (startTimer m).lockEvents = m.lockEvents := by
  unfold startTimer
  split <;> simp

theorem setUnlocked_fields (kp : Keypair) (m : LockManager) :
    (setUnlocked kp m).state_locked = false ∧
    (setUnlocked kp m).keypair = some kp ∧
    (setUnlocked kp m).unlockEvents
      = m.unlockEvents ++ List.replicate m.nUnlockListeners kp := by
  simp only [setUnlocked, startTimer]
  split <;> simp

theorem startTimer_of_nonpos (m : LockManager) (h : m.inactivity_seconds ≤ 0) :
    startTimer m = m := by
  unfold startTimer
  rw [if_pos h]

/-! ## Claim theorems -/

/-- Demo pool of C5's concrete instance: two endpoints with `Unknown`
health, then `A` recorded unhealthy and `B` recorded healthy. -/
def epA : EndpointStatus := ⟨"https://a.example", "A", 0, none, none, none⟩

def epB : EndpointStatus := ⟨"https://b.example", "B", 0, none, none, none⟩

def demoPool : List EndpointStatus :=
  [epA.markResult false none 1, epB.markResult true (some 10) 2]

/-- **C5**: endpoint selection returns the first pool element with the
minimal `(health rank, priority)` key — health `Healthy` before `Unknown`
before `Unhealthy`, then lower numeric priority, remaining ties resolved
by original pool order (`firstMin`); the selected endpoint is a pool
member whose key is minimal; and on the pool `[A(Unknown), B(Unknown)]`
after recording `A` unhealthy and `B` healthy, selection returns `B`. -/
theorem c5_selection_policy :
    (∀ pool : List EndpointStatus, selectBest pool = firstMin pool) ∧
    (∀ (pool : List EndpointStatus) (e : EndpointStatus),
      selectBest pool = some e → e ∈ pool ∧ ∀ f ∈ pool, epLe e f = true) ∧
    selectBest demoPool = some (epB.markResult true (some 10) 2) := by
  refine ⟨selectBest_eq_firstMin, ?_, by rfl⟩
  intro pool e h
  rw [selectBest_eq_firstMin] at h
  exact firstMin_mem_min pool e h

/-- Witness for C5 at a concrete pool: the hypothesis of the second
conjunct is discharged at `demoPool`, showing the selected endpoint `B`
is a member with minimal key. -/
theorem c5_selection_policy_witness :
    (epB.markResult true (some 10) 2) ∈ demoPool ∧
      (∀ f ∈ demoPool, epLe (epB.markResult true (some 10) 2) f = true) :=
  c5_selection_policy.2.1 demoPool (epB.markResult true (some 10) 2) (by rfl)

/-- **C10**: `select_endpoint` is read-only — for every wallet state and
requested network it returns the updated-state component equal to the
input state, so the endpoint pools, every endpoint's health, latency and
last-checked fields, and the wallet state are unchanged and no rotation
of the active endpoint can occur. -/
theorem c10_select_endpoint_readonly (w : WalletController) (netOpt : Option Network) :
    (selectEndpointM w netOpt).2 = w ∧
    (selectEndpointM w netOpt).2.endpoints = w.endpoints ∧
    (selectEndpointM w netOpt).2.network = w.network := by
  have h : (selectEndpointM w netOpt).2 = w := by
    unfold selectEndpointM
    cases h : selectBest ((assocGet w.endpoints (netOpt.getD w.network)).getD []) with
    | none => simp [h]
    | some ep => simp [h]
  exact ⟨h, by rw [h], by rw [h]⟩

/-- **C9**: the health monitor's poll interval is clamped into 15–60
seconds: requested values below 15 yield 15 s, above 60 yield 60 s, and
values in between are used unchanged (`interval_ms` is the interval in
milliseconds). -/
theorem c9_poll_interval_clamped (x : Int) :
    (x < 15 → intervalMs x = 15 * 1000) ∧
    (60 < x → intervalMs x = 60 * 1000) ∧
    (15 ≤ x → x ≤ 60 → intervalMs x = x * 1000) := by
  unfold intervalMs
  refine ⟨fun h => ?_, fun h => ?_, fun h1 h2 => ?_⟩
  · rw [min_eq_left (by omega), max_eq_left (by omega)]
  · rw [min_eq_right (by omega), max_eq_right (by omega)]
  · rw [min_eq_left (by omega), max_eq_right (by omega)]

/-- The key step shared by C1 and C2: running `unlock` on a manager whose
metadata was written by `persist_keystore` reaches the `Keypair.from_bytes`
check with plaintext `xorBytes ct (deriveKey pass salt 64)`. -/
theorem unlock_after_persist (C : Crypto) (entropy : List Nat) (now : Nat)
    (persistPass unlockPass : String) (kp : Keypair) (m : LockManager)
    (hlen : kp.bytes.length = 64)
    (hdk : (C.deriveKey persistPass (entropy.take 16) 64).length = 64)
    (hsalt : C.b64decode (C.b64encode (entropy.take 16)) = some (entropy.take 16))
    (hct : C.b64decode (C.b64encode (xorBytes kp.bytes (C.deriveKey persistPass (entropy.take 16) 64)))
        = some (xorBytes kp.bytes (C.deriveKey persistPass (entropy.take 16) 64)))
    (hsaltNe : C.b64encode (entropy.take 16) ≠ "")
    (hctNe : C.b64encode (xorBytes kp.bytes (C.deriveKey persistPass (entropy.take 16) 64)) ≠ "") :
    unlock C unlockPass (persistKeystore C entropy now persistPass kp m) =
      (let salt := entropy.take 16
       let ct := xorBytes kp.bytes (C.deriveKey persistPass salt 64)
       let plaintext := xorBytes ct (C.deriveKey unlockPass salt 64)
       if C.valid plaintext then
         (.ok ⟨plaintext⟩,
           setUnlocked ⟨plaintext⟩ (persistKeystore C entropy now persistPass kp m))
       else (.error .wrongPassphrase, persistKeystore C entropy now persistPass kp m)) := by
  have hctlen : (xorBytes kp.bytes (C.deriveKey persistPass (entropy.take 16) 64)).length = 64 := by
    rw [xorBytes_length, hlen, hdk]
    exact min_self 64
  simp only [unlock, persistKeystore, pyAsObj, pyLookup, pyAsStr, truthy,
    recordedPublicKey]
  simp only [String.reduceEq, if_true, if_false, reduceCtorEq, ite_true, ite_false,
    hsalt, hct, hctlen]
  simp [hsaltNe, hctNe]

/-- **C1** (round-trip law): for every passphrase `P` and well-formed
secret keypair (64-byte serialization accepted by `Keypair.from_bytes`),
`persist(P, secret)` followed by `unlock(P)` succeeds, returns exactly the
persisted keypair — hence key material whose public identity equals the
`public_key` recorded in the keystore at persist time — and leaves the
vault unlocked holding that keypair.  The hypotheses record the library
facts used: PBKDF2 with `dklen = 64` returns 64 bytes, and base64
decoding inverts encoding on the stored salt and ciphertext. -/
theorem c1_persist_unlock_roundtrip (C : Crypto) (entropy : List Nat) (now : Nat)
    (P : String) (kp : Keypair) (m : LockManager)
    (hlen : kp.bytes.length = 64)
    (hvalid : C.valid kp.bytes = true)
    (hdk : (C.deriveKey P (entropy.take 16) 64).length = 64)
    (hsalt : C.b64decode (C.b64encode (entropy.take 16)) = some (entropy.take 16))
    (hct : C.b64decode (C.b64encode (xorBytes kp.bytes (C.deriveKey P (entropy.take 16) 64)))
        = some (xorBytes kp.bytes (C.deriveKey P (entropy.take 16) 64)))
    (hsaltNe : C.b64encode (entropy.take 16) ≠ "")
    (hctNe : C.b64encode (xorBytes kp.bytes (C.deriveKey P (entropy.take 16) 64)) ≠ "") :
    (unlock C P (persistKeystore C entropy now P kp m)).1 = .ok kp ∧
    recordedPublicKey (persistKeystore C entropy now P kp m)
      = some (.str (C.pubkeyStr kp)) ∧
    (unlock C P (persistKeystore C entropy now P kp m)).2.state_locked = false ∧
    (unlock C P (persistKeystore C entropy now P kp m)).2.keypair = some kp := by
  have hplain : xorBytes (xorBytes kp.bytes (C.deriveKey P (entropy.take 16) 64))
      (C.deriveKey P (entropy.take 16) 64) = kp.bytes :=
    xorBytes_cancel kp.bytes (C.deriveKey P (entropy.take 16) 64) (by rw [hlen, hdk])
  have hrun := unlock_after_persist C entropy now P P kp m hlen hdk hsalt hct hsaltNe hctNe
  simp only [hplain, hvalid, if_true] at hrun
  have hkp : (⟨kp.bytes⟩ : Keypair) = kp := rfl
  rw [hkp] at hrun
  refine ⟨by rw [hrun], ?_, ?_, ?_⟩
  · simp [recordedPublicKey, persistKeystore, pyLookup]
  · rw [hrun]
    exact (setUnlocked_fields kp _).1
  · rw [hrun]
    exact (setUnlocked_fields kp _).2.1

/-- A concrete stand-in for the external crypto libraries, used by the
witnesses: the derived key is a constant block determined by the
passphrase length, byte strings are "base64"-coded by shifting each byte
into a character, and a 64-byte keypair serialization is valid when its
public half is the byte-wise successor of its secret half. -/
def encB (bs : List Nat) : String :=
  String.mk (bs.map (fun b => Char.ofNat (b + 48)))

def decB (s : String) : Option (List Nat) :=
  some (s.toList.map (fun c => c.toNat - 48))

def Cw : Crypto where
  deriveKey := fun p _ l => List.replicate l (p.length % 256)
  b64encode := encB
  b64decode := decB
  valid := fun bs =>
    bs.length == 64 && decide (bs.drop 32 = (bs.take 32).map (fun b => (b + 1) % 256))
  pubStr := fun pb => encB pb

def kpW : Keypair := ⟨List.replicate 32 0 ++ List.replicate 32 1⟩

def entropyW : List Nat := List.replicate 64 9

def m0 : LockManager := initLockManager 300 .absent 0 0

/-- Witness for C1: the round trip evaluated on the concrete crypto
stand-in, keypair, entropy and a fresh manager. -/
theorem c1_persist_unlock_roundtrip_witness :
    (unlock Cw "aa" (persistKeystore Cw entropyW 0 "aa" kpW m0)).1 = .ok kpW ∧
    recordedPublicKey (persistKeystore Cw entropyW 0 "aa" kpW m0)
      = some (.str (Cw.pubkeyStr kpW)) :=
  have h := c1_persist_unlock_roundtrip Cw entropyW 0 "aa" kpW m0
    (by decide) (by decide) (by decide) (by decide) (by decide) (by decide) (by decide)
  ⟨h.1, h.2.1⟩

/-- **C2**: unlocking a keystore persisted under passphrase `P` with a
different passphrase `P'` fails with the wrong-passphrase error, and the
vault state is returned unchanged: still `Locked`, with no secret key
material in memory.  `hfail` is the cryptographic fact that decrypting
with the wrong derived key does not yield bytes accepted by
`Keypair.from_bytes`; the remaining hypotheses are the same library facts
as in the round-trip law. -/
theorem c2_wrong_passphrase_fails (C : Crypto) (entropy : List Nat) (now : Nat)
    (P Pbad : String) (kp : Keypair) (m : LockManager)
    (hlen : kp.bytes.length = 64)
    (hdk : (C.deriveKey P (entropy.take 16) 64).length = 64)
    (hsalt : C.b64decode (C.b64encode (entropy.take 16)) = some (entropy.take 16))
    (hct : C.b64decode (C.b64encode (xorBytes kp.bytes (C.deriveKey P (entropy.take 16) 64)))
        = some (xorBytes kp.bytes (C.deriveKey P (entropy.take 16) 64)))
    (hsaltNe : C.b64encode (entropy.take 16) ≠ "")
    (hctNe : C.b64encode (xorBytes kp.bytes (C.deriveKey P (entropy.take 16) 64)) ≠ "")
    (_hne : Pbad ≠ P)
    (hmLocked : m.state_locked = true)
    (hmNone : m.keypair = none)
    (hfail : C.valid (xorBytes (xorBytes kp.bytes (C.deriveKey P (entropy.take 16) 64))
        (C.deriveKey Pbad (entropy.take 16) 64)) = false) :
    unlock C Pbad (persistKeystore C entropy now P kp m)
      = (.error .wrongPassphrase, persistKeystore C entropy now P kp m) ∧
    (unlock C Pbad (persistKeystore C entropy now P kp m)).2.state_locked = true ∧
    (unlock C Pbad (persistKeystore C entropy now P kp m)).2.keypair = none := by
  have hrun := unlock_after_persist C entropy now P Pbad kp m hlen hdk hsalt hct hsaltNe hctNe
  simp only [hfail, if_false, Bool.false_eq_true] at hrun
  refine ⟨hrun, ?_, ?_⟩
  · rw [hrun]
    simpa [persistKeystore] using hmLocked
  · rw [hrun]
    simpa [persistKeystore] using hmNone

/-- Witness for C2: the concrete crypto stand-in with persist passphrase
"aa" and unlock attempt "abc"; the decrypted candidate bytes fail the
keypair validity check, so `unlock` reports a wrong passphrase and the
vault stays locked and empty. -/
theorem c2_wrong_passphrase_fails_witness :
    (unlock Cw "abc" (persistKeystore Cw entropyW 0 "aa" kpW m0)).1
      = .error .wrongPassphrase ∧
    (unlock Cw "abc" (persistKeystore Cw entropyW 0 "aa" kpW m0)).2.state_locked = true ∧
    (unlock Cw "abc" (persistKeystore Cw entropyW 0 "aa" kpW m0)).2.keypair = none :=
  have h := c2_wrong_passphrase_fails Cw entropyW 0 "aa" "abc" kpW m0
    (by decide) (by decide) (by decide) (by decide) (by decide) (by decide)
    (by decide) (by decide) (by decide) (by decide)
  ⟨by rw [h.1], h.2.1, h.2.2⟩

/-- Every successful `unlock` goes through `_set_unlocked`. -/
theorem unlock_ok_shape (C : Crypto) (P : String) (m : LockManager)
    (kp : Keypair) (st' : LockManager)
    (h : unlock C P m = (.ok kp, st')) : st' = setUnlocked kp m := by
  unfold unlock at h
  cases hmeta : m.keystore_metadata with
  | none => simp only [hmeta] at h; exact absurd h (by simp)
  | some meta =>
    simp only [hmeta] at h
    cases hobj : pyAsObj meta with
    | none => simp only [hobj] at h; exact absurd h (by simp)
    | some fields =>
      simp only [hobj] at h
      by_cases hcond : ¬ truthy (pyLookup fields "salt") = true
          ∨ ¬ truthy (pyLookup fields "ciphertext") = true
      · rw [if_pos hcond] at h; exact absurd h (by simp)
      · rw [if_neg hcond] at h
        cases hs : pyAsStr (pyLookup fields "salt") with
        | none => simp only [hs] at h; exact absurd h (by simp)
        | some saltText =>
          simp only [hs] at h
          cases hc : pyAsStr (pyLookup fields "ciphertext") with
          | none => simp only [hc] at h; exact absurd h (by simp)
          | some ctText =>
            simp only [hc] at h
            cases hbs : C.b64decode saltText with
            | none => simp only [hbs] at h; exact absurd h (by simp)
            | some salt =>
              simp only [hbs] at h
              cases hbc : C.b64decode ctText with
              | none => simp only [hbc] at h; exact absurd h (by simp)
              | some ciphertext =>
                simp only [hbc] at h
                by_cases hv : C.valid (xorBytes ciphertext
                    (C.deriveKey P salt ciphertext.length)) = true
                · rw [if_pos hv] at h
                  simp only [Prod.mk.injEq, Except.ok.injEq] at h
                  obtain ⟨rfl, rfl⟩ := h
                  rfl
                · rw [if_neg hv] at h; exact absurd h (by simp)

/-- **C3 (amended)**: whenever an unlock succeeds, every registered
unlock subscriber is synchronously notified — but with the decrypted
`Keypair` object itself (one log entry per listener, each carrying the
full keypair, raw secret bytes included), not with just the public
identity. -/
theorem c3_subscribers_receive_keypair (C : Crypto) (P : String)
    (m : LockManager) (kp : Keypair) (st' : LockManager)
    (h : unlock C P m = (.ok kp, st')) :
    st'.unlockEvents = m.unlockEvents ++ List.replicate m.nUnlockListeners kp ∧
    st'.state_locked = false ∧ st'.keypair = some kp := by
  rw [unlock_ok_shape C P m kp st' h]
  exact ⟨(setUnlocked_fields kp m).2.2, (setUnlocked_fields kp m).1,
    (setUnlocked_fields kp m).2.1⟩

/-- Witness for C3 (amended): a successful unlock with one registered
unlock listener logs exactly one notification, carrying the keypair. -/
theorem c3_subscribers_receive_keypair_witness :
    (unlock Cw "aa" (persistKeystore Cw entropyW 0 "aa" kpW
      (initLockManager 300 .absent 0 1))).2.unlockEvents = List.replicate 1 kpW := by
  simpa using (c3_subscribers_receive_keypair Cw "aa"
    (persistKeystore Cw entropyW 0 "aa" kpW (initLockManager 300 .absent 0 1))
    kpW _ rfl).1

/-- Counterexample to C3 as stated: with one registered unlock listener,
the single notification payload is the full keypair `kpW`, whose first 32
bytes are exactly the raw secret key bytes — the subscriber therefore
does receive the raw secret key bytes, not only the public identity. -/
theorem c3_counterexample :
    (unlock Cw "aa" (persistKeystore Cw entropyW 0 "aa" kpW
      (initLockManager 300 .absent 0 1))).2.unlockEvents = [kpW] ∧
    kpW.bytes.take 32 = List.replicate 32 0 := by
  constructor
  · decide
  · decide

/-- Modelled from the spec: a well-formed keystore record is a JSON
object with base64-string `salt` and `ciphertext` fields (nonempty), a
string `public_key` and a numeric `created` timestamp; any other JSON
value is malformed keystore content. -/
def wellFormedRecord : PyJson → Bool
  | .obj fs =>
    (match pyLookup fs "salt" with | some (.str s) => !s.isEmpty | _ => false) &&
    (match pyLookup fs "ciphertext" with | some (.str s) => !s.isEmpty | _ => false) &&
    (match pyLookup fs "public_key" with | some (.str _) => true | _ => false) &&
    (match pyLookup fs "created" with | some (.num _) => true | _ => false)
  | _ => false

/-- Counterexample to C6 as stated: the file content `{}` is valid JSON
but a malformed keystore record, yet `_load_keystore` accepts it, the
vault reports a keystore as present (state `Locked`, not `NoKeystore`),
and `unlock` then does run against the malformed content (failing with
the incomplete-metadata `ValueError`, not a `NoKeystore` error). -/
theorem c6_counterexample :
    wellFormedRecord (.obj []) = false ∧
    hasKeystore (initLockManager 300 (.validJson (.obj [])) 0 0) = true ∧
    (unlock Cw "aa" (initLockManager 300 (.validJson (.obj [])) 0 0)).1
      = .error .incompleteMetadata := by
  exact ⟨rfl, rfl, rfl⟩

/-- **C6 (amended)**: content rejected by the JSON parser is treated
identically to an absent file (no keystore present), and so is the JSON
literal `null` (parsed to Python `None`); any other successfully parsed
JSON value — well-formed keystore record or not — is loaded and reported
as a present keystore. -/
theorem c6_malformed_json_as_absent :
    (∀ (raw : String) (i : Int) (a b : Nat),
      initLockManager i (.invalidJson raw) a b = initLockManager i .absent a b) ∧
    (∀ (i : Int) (a b : Nat),
      initLockManager i (.validJson .null) a b = initLockManager i .absent a b) ∧
    (∀ (i : Int) (a b : Nat), hasKeystore (initLockManager i .absent a b) = false) ∧
    (∀ (i : Int) (a b : Nat) (v : PyJson), v ≠ .null →
      hasKeystore (initLockManager i (.validJson v) a b) = true) := by
  refine ⟨fun _ _ _ _ => rfl, fun _ _ _ => rfl, fun _ _ _ => rfl, fun i a b v hv => ?_⟩
  cases v with
  | null => exact absurd rfl hv
  | bool b' => rfl
  | num n => rfl
  | str s => rfl
  | arr xs => rfl
  | obj fs => rfl

/-- Witness for C6 (amended): the non-null parsed JSON value `{}` is
reported as a present keystore. -/
theorem c6_malformed_json_as_absent_witness :
    hasKeystore (initLockManager 300 (.validJson (.obj [])) 0 0) = true :=
  c6_malformed_json_as_absent.2.2.2 300 0 0 (.obj []) (fun h => PyJson.noConfusion h)

/-- Counterexample to C7 as stated: calling `lock` on an already-locked
vault with one registered lock listener is observably different from not
calling it — the lock listeners are notified again. -/
theorem c7_counterexample :
    (initLockManager 300 .absent 1 0).state_locked = true ∧
    (initLockManager 300 .absent 1 0).keypair = none ∧
    lockSession (initLockManager 300 .absent 1 0) ≠ initLockManager 300 .absent 1 0 := by
  refine ⟨rfl, rfl, fun h => ?_⟩
  have hev := congrArg LockManager.lockEvents h
  simp [lockSession, initLockManager] at hev

/-- **C7 (amended)**: `lock` is state-idempotent and raises no error —
after any call the vault is `Locked` with no secret and no timer, and on
an already-locked vault with no secret and no timer the only change is
that the lock listeners are notified once more. -/
theorem c7_lock_idempotent_state (m : LockManager) :
    (lockSession m).state_locked = true ∧
    (lockSession m).keypair = none ∧
    (lockSession m).timer = none ∧
    (m.state_locked = true → m.keypair = none → m.timer = none →
      lockSession m = { m with lockEvents := m.lockEvents + m.nLockListeners }) := by
  refine ⟨rfl, rfl, rfl, fun h1 h2 h3 => ?_⟩
  cases m
  simp only [lockSession] at *
  subst h1 h2 h3
  rfl

/-- Witness for C7 (amended) on a concrete already-locked vault with one
lock listener. -/
theorem c7_lock_idempotent_state_witness :
    lockSession (initLockManager 300 .absent 1 0)
      = { initLockManager 300 .absent 1 0 with lockEvents := 0 + 1 } :=
  (c7_lock_idempotent_state (initLockManager 300 .absent 1 0)).2.2.2 rfl rfl rfl

/-- The state component of `unlock` is either unchanged (any failure) or
the result of `_set_unlocked` (success). -/
theorem unlock_state_cases (C : Crypto) (P : String) (m : LockManager) :
    (unlock C P m).2 = m ∨ ∃ kp, (unlock C P m).2 = setUnlocked kp m := by
  unfold unlock
  cases hmeta : m.keystore_metadata with
  | none => left; rfl
  | some meta =>
    simp only [hmeta]
    cases hobj : pyAsObj meta with
    | none => left; rfl
    | some fields =>
      simp only [hobj]
      by_cases hcond : ¬ truthy (pyLookup fields "salt") = true
          ∨ ¬ truthy (pyLookup fields "ciphertext") = true
      · rw [if_pos hcond]; left; rfl
      · rw [if_neg hcond]
        cases hs : pyAsStr (pyLookup fields "salt") with
        | none => left; rfl
        | some saltText =>
          simp only [hs]
          cases hc : pyAsStr (pyLookup fields "ciphertext") with
          | none => left; rfl
          | some ctText =>
            simp only [hc]
            cases hbs : C.b64decode saltText with
            | none => left; rfl
            | some salt =>
              simp only [hbs]
              cases hbc : C.b64decode ctText with
              | none => left; rfl
              | some ciphertext =>
                simp only [hbc]
                by_cases hv : C.valid (xorBytes ciphertext
                    (C.deriveKey P salt ciphertext.length)) = true
                · rw [if_pos hv]
                  right
                  exact ⟨⟨xorBytes ciphertext (C.deriveKey P salt ciphertext.length)⟩, rfl⟩
                · rw [if_neg hv]; left; rfl

/-- Counterexample to C8 as stated: the configured duration `300` is
`≥ 0`, yet a successful unlock does start an inactivity timer. -/
theorem c8_counterexample :
    (300 : Int) ≥ 0 ∧
    (unlockWithKeypair kpW (initLockManager 300 .absent 0 0)).timer = some 300 :=
  ⟨by decide, rfl⟩

/-- **C8 (amended)**: a configured duration `≤ 0` (not `≥ 0`) disables
auto-lock: `_start_timer` is then a no-op, no inactivity timer is started
by unlock (either form) or by activity, and with no timer pending a
timeout firing can never happen, so an unlocked session is never
automatically locked. -/
theorem c8_nonpositive_duration_disables_autolock (m : LockManager)
    (kp : Keypair) (C : Crypto) (P : String)
    (h : m.inactivity_seconds ≤ 0) :
    startTimer m = m ∧
    (unlockWithKeypair kp m).timer = m.timer ∧
    (registerActivity m).timer = m.timer ∧
    (unlock C P m).2.timer = m.timer ∧
    (m.timer = none → timerFire m = m) := by
  have hst : ∀ m' : LockManager, m'.inactivity_seconds = m.inactivity_seconds →
      startTimer m' = m' := fun m' hm' => startTimer_of_nonpos m' (by rw [hm']; exact h)
  have hsu : ∀ kp' : Keypair, (setUnlocked kp' m).timer = m.timer := by
    intro kp'
    show (let m1 := startTimer { m with keypair := some kp', state_locked := false }
      { m1 with unlockEvents := m1.unlockEvents
          ++ List.replicate m1.nUnlockListeners kp' }).timer = m.timer
    rw [hst { m with keypair := some kp', state_locked := false } rfl]
  refine ⟨hst m rfl, hsu kp, ?_, ?_, fun ht => ?_⟩
  · unfold registerActivity
    by_cases hl : m.state_locked = true
    · rw [if_pos hl]
    · rw [if_neg hl, hst m rfl]
  · rcases unlock_state_cases C P m with hcase | ⟨kp', hcase⟩
    · rw [hcase]
    · rw [hcase, hsu kp']
  · unfold timerFire
    rw [ht]

/-- Witness for C8 (amended) with the configured duration 0. -/
theorem c8_nonpositive_duration_disables_autolock_witness :
    startTimer (initLockManager 0 .absent 0 0) = initLockManager 0 .absent 0 0 ∧
    (unlockWithKeypair kpW (initLockManager 0 .absent 0 0)).timer = none ∧
    timerFire (initLockManager 0 .absent 0 0) = initLockManager 0 .absent 0 0 :=
  have h := c8_nonpositive_duration_disables_autolock
    (initLockManager 0 .absent 0 0) kpW Cw "aa" (by decide)
  ⟨h.1, by rw [h.2.1]; rfl, h.2.2.2.2 rfl⟩

/-- A nonempty pool always selects some endpoint. -/
theorem selectBest_cons_ne_none (x : EndpointStatus) (xs : List EndpointStatus) :
    selectBest (x :: xs) ≠ none := by
  rw [selectBest_eq_firstMin]
  exact firstMin_cons_ne_none x xs

/-- **C4 (amended)**: each remote wrapper makes at most one RPC attempt
per call (so it trivially never loops forever), and when the operation
fails on the selected endpoint it records an unhealthy result and
*silently substitutes a fallback result* — `fetch_recent_blockhash`
returns a locally generated placeholder hash and `refresh_balance`
returns `None` — instead of advancing, retrying, or raising
`AllEndpointsUnreachable`. -/
theorem c4_single_attempt_fallback (rpc : String → Option String)
    (rpcB : String → Option Int) (placeholder : String) (now : Nat)
    (w : WalletController) :
    (fetchRecentBlockhash rpc placeholder now w).2.1.length ≤ 1 ∧
    (refreshBalance rpcB now w).2.1.length ≤ 1 ∧
    (∀ ep, selectBest ((assocGet w.endpoints w.network).getD []) = some ep →
      rpc ep.url = none →
      fetchRecentBlockhash rpc placeholder now w
        = (.ok placeholder, [ep.url], markEndpointFailed w ep now)) ∧
    (∀ ep, selectBest ((assocGet w.endpoints w.network).getD []) = some ep →
      w.keypair ≠ none → rpcB ep.url = none →
      refreshBalance rpcB now w = (.ok none, [ep.url], markEndpointFailed w ep now)) := by
  refine ⟨?_, ?_, ?_, ?_⟩
  · unfold fetchRecentBlockhash
    cases hsel : selectBest ((assocGet w.endpoints w.network).getD []) with
    | none => simp [hsel]
    | some ep => cases hrpc : rpc ep.url <;> simp [hsel, hrpc]
  · unfold refreshBalance
    cases hkp : w.keypair with
    | none => simp [hkp]
    | some kp =>
      simp only [hkp]
      cases hsel : selectBest ((assocGet w.endpoints w.network).getD []) with
      | none => simp [hsel]
      | some ep => cases hrpc : rpcB ep.url <;> simp [hsel, hrpc]
  · intro ep hsel hrpc
    unfold fetchRecentBlockhash
    simp [hsel, hrpc]
  · intro ep hsel hkp hrpc
    unfold refreshBalance
    cases hk : w.keypair with
    | none => exact absurd hk hkp
    | some kp => simp [hk, hsel, hrpc]

/-- The endpoint pool of C4's counterexample: two candidates. -/
def poolBad : List EndpointStatus :=
  [⟨"https://x1.example", "X1", 0, none, none, none⟩,
   ⟨"https://x2.example", "X2", 0, none, none, none⟩]

def wBad : WalletController :=
  { network := .devnet, sol_balance := none, keypair := none,
    endpoints := [(.devnet, poolBad)] }

/-- Counterexample to C4 as stated: against a pool of size 2 whose
operation fails on every endpoint, `fetch_recent_blockhash` makes exactly
one attempt, raises nothing, and silently substitutes the locally
generated placeholder as a successful result — it does not raise
`AllEndpointsUnreachable`. -/
theorem c4_counterexample :
    poolBad.length = 2 ∧
    (fetchRecentBlockhash (fun _ => none) "ffff0000ffff0000" 5 wBad).1
      = .ok "ffff0000ffff0000" ∧
    (fetchRecentBlockhash (fun _ => none) "ffff0000ffff0000" 5 wBad).2.1.length = 1 :=
  ⟨rfl, rfl, rfl⟩

/-- Witness for C4 (amended) on the concrete two-endpoint pool with an
always-failing operation. -/
theorem c4_single_attempt_fallback_witness :
    fetchRecentBlockhash (fun _ => none) "ph" 5 wBad
      = (.ok "ph", ["https://x1.example"],
          markEndpointFailed wBad ⟨"https://x1.example", "X1", 0, none, none, none⟩ 5) :=
  (c4_single_attempt_fallback (fun _ => none) (fun _ => none) "ph" 5 wBad).2.2.1
    ⟨"https://x1.example", "X1", 0, none, none, none⟩ rfl rfl

/-- Witness for C9 at the concrete requested intervals 5, 99 and 30. -/
theorem c9_poll_interval_clamped_witness :
    intervalMs 5 = 15 * 1000 ∧ intervalMs 99 = 60 * 1000 ∧
      intervalMs 30 = 30 * 1000 :=
  ⟨(c9_poll_interval_clamped 5).1 (by decide),
   (c9_poll_interval_clamped 99).2.1 (by decide),
   (c9_poll_interval_clamped 30).2.2 (by decide) (by decide)⟩

end Aloran
